import Mathlib

/-!
Verification of the Serialization repository: a shallow embedding in Lean 4 of
the type registry (util/registry.h), the archiver wrappers for the JSON tree
format and the binary multi-process stream (common/archiver_wrapper.h), and the
binary file reader (serialization.cpp), together with theorems settling the
specification claims about them.
-/

namespace Serialization

/-!
## Registry (util/registry.h, `serialization::Registry`)

The C++ `Registry<KeyType, Function>` holds a `std::unordered_map<KeyType,
Function>` guarded by a shared mutex.  The registries actually instantiated by
the macros use `KeyType = std::string`, which `Run`'s error message relies on
(`"Registry key not found: " + std::string(key)`), so the embedding fixes the
key type to `String`.  The map is embedded as an association list with
map-assignment semantics (`registry_[key] = f` overwrites an existing entry);
the mutex only serialises accesses and has no sequential behaviour to model.
-/

/-- One registry state: the entries of the underlying `unordered_map`,
as (key, function) pairs with at most one entry per key reachable by lookup. -/
abbrev Reg (F : Type) : Type := List (String × F)

/-- Lookup in the underlying map (`registry_.find(key)`): the function stored
for `key`, or `none` when the key is absent. -/
def findEntry {F : Type} : Reg F → String → Option F
  | [], _ => none
  | (k₀, f₀) :: rest, k => if k₀ = k then some f₀ else findEntry rest k

/-- Map assignment `registry_[key] = f`: overwrite the entry for `key` when
present, append a fresh entry otherwise. -/
def setEntry {F : Type} : Reg F → String → F → Reg F
  | [], k, f => [(k, f)]
  | (k₀, f₀) :: rest, k, f =>
      if k₀ = k then (k, f) :: rest else (k₀, f₀) :: setEntry rest k f

/-- `Registry::Register(key, f)`: `registry_[key] = std::move(f)`.  It is a
total function: registration always succeeds, silently overwriting. -/
def Register {F : Type} (r : Reg F) (key : String) (f : F) : Reg F :=
  setEntry r key f

/-- `Registry::Has(key)`: `registry_.contains(key)`. -/
def Has {F : Type} (r : Reg F) (key : String) : Bool :=
  (findEntry r key).isSome

/-- `Registry::Run(key, args...)`: find the entry; if absent, throw
`std::out_of_range("Registry key not found: " + std::string(key))`; otherwise
invoke the stored function on the arguments and return its result.  Callbacks
are embedded as functions from an argument pack type `A` to a result type
`B`, and the thrown exception as the `Except.error` carrying the message. -/
def Run {A B : Type} (r : Reg (A → B)) (key : String) (args : A) :
    Except String B :=
  match findEntry r key with
  | none => Except.error ("Registry key not found: " ++ key)
  | some f => Except.ok (f args)

/-!
## Creator registry (util/registry.h, `serialization::creator::Registry`)

`creator::Registry<KeyType, ReturnType, Args...>` maps keys to factory
functions `std::function<ReturnType(Args...)>`; `ReturnType` is a smart
pointer type, whose null state is embedded as `Option.none`: a factory
returns an `Option B` and `Create` returns `nullptr` (that is, `none`)
when the key is unregistered.
-/

/-- `creator::Registry::Create(key, args...)`: find the entry; if absent,
return `nullptr` (embedded as `none`) without raising; otherwise invoke the
stored factory on the arguments and return the instance it produces. -/
def Create {A B : Type} (r : Reg (A → Option B)) (key : String) (args : A) :
    Option B :=
  match findEntry r key with
  | none => none
  | some f => f args

/-! ### Registry lemmas -/

theorem findEntry_setEntry_self {F : Type} (r : Reg F) (k : String) (f : F) :
    findEntry (setEntry r k f) k = some f := by
  induction r with
  | nil => simp [setEntry, findEntry]
  | cons hd tl ih =>
      obtain ⟨k₀, f₀⟩ := hd
      by_cases h : k₀ = k
      · simp [setEntry, findEntry, h]
      · simp [setEntry, findEntry, h, ih]

theorem has_false_iff_findEntry_none {F : Type} (r : Reg F) (k : String) :
    Has r k = false ↔ findEntry r k = none := by
  unfold Has
  cases findEntry r k <;> simp

/-! ## Claim theorems: registry -/

/-- C1: for every registry state, key and callbacks, calling `Register(K, f1)`
and then `Register(K, f2)` always succeeds (both are total), and afterwards
`Has K` is true, the entry reachable by lookup is exactly `f2`, and
`Run K args` invokes `f2`: the last registration wins and `f1` is no longer
reachable through `Has`/`Run`. -/
theorem register_last_wins {A B : Type} (r : Reg (A → B)) (k : String)
    (f1 f2 : A → B) (args : A) :
    Has (Register (Register r k f1) k f2) k = true ∧
      findEntry (Register (Register r k f1) k f2) k = some f2 ∧
      Run (Register (Register r k f1) k f2) k args = Except.ok (f2 args) := by
  have hfind : findEntry (Register (Register r k f1) k f2) k = some f2 :=
    findEntry_setEntry_self _ k f2
  refine ⟨?_, hfind, ?_⟩
  · simp [Has, hfind]
  · simp [Run, hfind]

/-- C2: `Run` on a key with no entry invokes no callback and fails with the
"key not found" condition carrying the missing key; on a registered key it
invokes the registered callback on the given arguments and returns its
result. -/
theorem run_key_not_found {A B : Type} (r : Reg (A → B)) (k : String)
    (args : A) :
    (Has r k = false →
      Run r k args = Except.error ("Registry key not found: " ++ k)) ∧
      (∀ f : A → B, findEntry r k = some f →
        Run r k args = Except.ok (f args)) := by
  constructor
  · intro h
    have hnone : findEntry r k = none :=
      (has_false_iff_findEntry_none r k).mp h
    simp [Run, hnone]
  · intro f hf
    simp [Run, hf]

/-- Witness for C2 at concrete inputs: the empty registry misses "A", and a
one-entry registry runs its callback. -/
theorem run_key_not_found_witness :
    (Run ([] : Reg (Nat → Nat)) "A" 5 =
        Except.error ("Registry key not found: " ++ "A")) ∧
      Run [("A", fun n => n + 1)] "A" 5 = Except.ok 6 := by
  constructor
  · exact (run_key_not_found ([] : Reg (Nat → Nat)) "A" 5).1 (by decide)
  · exact (run_key_not_found [("A", fun n => n + 1)] "A" 5).2
      (fun n => n + 1) (by simp [findEntry])

/-- C3: `Create` on an unregistered key returns the explicit null result and
raises no error (it is a total function into `Option`); on a registered key it
returns exactly the instance the registered factory produces on those
arguments. -/
theorem create_absent_returns_null {A B : Type} (r : Reg (A → Option B))
    (k : String) (args : A) :
    (Has r k = false → Create r k args = none) ∧
      (∀ f : A → Option B, findEntry r k = some f →
        Create r k args = f args) := by
  constructor
  · intro h
    have hnone : findEntry r k = none :=
      (has_false_iff_findEntry_none r k).mp h
    simp [Create, hnone]
  · intro f hf
    simp [Create, hf]

/-- Witness for C3 at concrete inputs: "UnknownType" is absent from the empty
creator registry and yields `none`; a registered factory's instance is
returned. -/
theorem create_absent_returns_null_witness :
    (Create ([] : Reg (Nat → Option Nat)) "UnknownType" 0 = none) ∧
      Create [("T", fun n => some (n + 7))] "T" 1 = some 8 := by
  constructor
  · exact (create_absent_returns_null ([] : Reg (Nat → Option Nat))
      "UnknownType" 0).1 (by decide)
  · exact (create_absent_returns_null [("T", fun n => some (n + 7))] "T" 1).2
      (fun n => some (n + 7)) (by simp [findEntry])

/-!
## JSON tree archive (nlohmann::ordered_json, used by archiver_wrapper<json>)

The tree document backend is external to the repository; the embedding keeps
the ordered object structure the wrapper relies on: field containment and
access by string key, in-place field assignment, string/number payloads.
Numbers carry an `Int` (the wrapper only reads class names and enum ints from
them in the claims at hand).
-/

/-- A tree-archive node: the nlohmann ordered_json value forms needed by the
archiver wrapper. -/
inductive Json : Type where
  | null : Json
  | bool (b : Bool) : Json
  | num (i : Int) : Json
  | str (s : String) : Json
  | arr (elems : List Json) : Json
  | obj (fields : List (String × Json)) : Json

/-- Lookup of a field of an object node; non-object nodes have no fields. -/
def Json.find : Json → String → Option Json
  | .obj fields, k => findJson fields k
  | _, _ => none
where
  /-- First match in the ordered field list. -/
  findJson : List (String × Json) → String → Option Json
    | [], _ => none
    | (k₀, v₀) :: rest, k => if k₀ = k then some v₀ else findJson rest k

/-- `archive.contains(key)`: true exactly on object nodes holding the field. -/
def Json.containsKey (j : Json) (k : String) : Bool :=
  (j.find k).isSome

/-- `archive[key]` read access, used only under a `contains` guard in the
source; absent fields default to `null` here, a case the guarded code never
reaches. -/
def Json.getField (j : Json) (k : String) : Json :=
  (j.find k).getD .null

/-- `archive[key] = v` on a tree node.  nlohmann `operator[]` materialises an
object from `null`, assigns into an existing object, and throws on any other
node type; the throw is the `none` outcome. -/
def Json.setField : Json → String → Json → Option Json
  | .null, k, v => some (.obj [(k, v)])
  | .obj fields, k, v => some (.obj (setJson fields k v))
  | _, _, _ => none
where
  /-- Overwrite the field when present, append it otherwise. -/
  setJson : List (String × Json) → String → Json → List (String × Json)
    | [], k, v => [(k, v)]
    | (k₀, v₀) :: rest, k, v =>
        if k₀ = k then (k, v) :: rest else (k₀, v₀) :: setJson rest k v

/-- JSON field name for class type information: `CLASS_NAME{R"(Class)"}`. -/
def CLASS_NAME : String := "Class"

/-- JSON field name for container size information: `SIZE_NAME{R"(Size)"}`. -/
def SIZE_NAME : String := "Size"

/-- `archiver_wrapper<json>::push_class_name`:
`archive[std::string(CLASS_NAME)] = name`. -/
def push_class_name (archive : Json) (name : String) : Option Json :=
  archive.setField CLASS_NAME (.str name)

/-- `archiver_wrapper<json>::pop_class_name`: if the archive has no
`CLASS_NAME` field, log a warning and return the empty string; if the field is
present but not a string, log a warning and return the empty string; otherwise
return the stored string.  The result pairs the returned string with the
warnings written to stderr; the function never throws. -/
def pop_class_name (archive : Json) : String × List String :=
  if !(archive.containsKey CLASS_NAME) then
    ("", ["json does not have a class name field!"])
  else
    match archive.getField CLASS_NAME with
    | .str s => (s, [])
    | _ => ("", ["Class name field is not a string!"])

/-! ### JSON lemmas -/

theorem findJson_setJson_self (fields : List (String × Json)) (k : String)
    (v : Json) :
    Json.find.findJson (Json.setField.setJson fields k v) k = some v := by
  induction fields with
  | nil => simp [Json.setField.setJson, Json.find.findJson]
  | cons hd tl ih =>
      obtain ⟨k₀, v₀⟩ := hd
      by_cases h : k₀ = k
      · simp [Json.setField.setJson, Json.find.findJson, h]
      · simp [Json.setField.setJson, Json.find.findJson, h, ih]

theorem find_push_class_name (archive archive2 : Json) (name : String)
    (h : push_class_name archive name = some archive2) :
    archive2.find CLASS_NAME = some (.str name) := by
  cases archive <;> simp [push_class_name, Json.setField] at h
  · subst h
    simp [Json.find, Json.find.findJson]
  · subst h
    simp [Json.find, findJson_setJson_self]

/-! ## Claim theorems: JSON class-name field -/

/-- C4: `pop_class_name` on a tree archive returns the value of the "Class"
field when present and a string; when the field is absent, or present but not
a string, it emits a warning and returns the empty string; being a total
function it raises in no case. -/
theorem pop_class_name_total (j : Json) :
    (∀ s : String, j.find "Class" = some (.str s) →
      pop_class_name j = (s, [])) ∧
      (j.find "Class" = none →
        pop_class_name j = ("", ["json does not have a class name field!"])) ∧
      (∀ v : Json, j.find "Class" = some v → (∀ s : String, v ≠ .str s) →
        pop_class_name j = ("", ["Class name field is not a string!"])) := by
  refine ⟨?_, ?_, ?_⟩
  · intro s hs
    simp [pop_class_name, Json.containsKey, Json.getField, CLASS_NAME, hs]
  · intro hnone
    simp [pop_class_name, Json.containsKey, CLASS_NAME, hnone]
  · intro v hv hnotstr
    cases v <;>
      simp [pop_class_name, Json.containsKey, Json.getField, CLASS_NAME, hv]
    exact (hnotstr _ rfl).elim

/-- Witness for C4 at concrete archives: a document with a string "Class"
field, one lacking the field, and one whose "Class" field is a number. -/
theorem pop_class_name_total_witness :
    pop_class_name (.obj [("Class", .str "Foo")]) = ("Foo", []) ∧
      pop_class_name (.obj [("Other", .num 1)]) =
        ("", ["json does not have a class name field!"]) ∧
      pop_class_name (.obj [("Class", .num 3)]) =
        ("", ["Class name field is not a string!"]) := by
  refine ⟨?_, ?_, ?_⟩
  · exact (pop_class_name_total (.obj [("Class", .str "Foo")])).1 "Foo"
      (by simp [Json.find, Json.find.findJson])
  · exact (pop_class_name_total (.obj [("Other", .num 1)])).2.1
      (by simp [Json.find, Json.find.findJson])
  · exact (pop_class_name_total (.obj [("Class", .num 3)])).2.2 (.num 3)
      (by simp [Json.find, Json.find.findJson])
      (by intro s h; cases h)

/-- C8: the persisted class-name field name is exactly "Class" and the default
container-size field name is exactly "Size"; `push_class_name` writes the name
under the "Class" field, and `pop_class_name` reads that same field back. -/
theorem persisted_field_names (j j2 : Json) (name : String) :
    CLASS_NAME = "Class" ∧ SIZE_NAME = "Size" ∧
      push_class_name .null name = some (.obj [("Class", .str name)]) ∧
      (push_class_name j name = some j2 →
        j2.find "Class" = some (.str name) ∧ pop_class_name j2 = (name, [])) := by
  refine ⟨rfl, rfl, rfl, ?_⟩
  intro h
  have hfind : j2.find CLASS_NAME = some (.str name) :=
    find_push_class_name j j2 name h
  refine ⟨hfind, ?_⟩
  exact (pop_class_name_total j2).1 name hfind

/-- Witness for C8 at a concrete archive: writing "Bar" into an object that
already has a "Class" field overwrites it, and reading it back returns
"Bar". -/
theorem persisted_field_names_witness :
    (push_class_name (.obj [("Class", .str "Old")]) "Bar" =
        some (.obj [("Class", .str "Bar")])) ∧
      pop_class_name (.obj [("Class", .str "Bar")]) = ("Bar", []) := by
  have h := persisted_field_names (.obj [("Class", .str "Old")])
    (.obj [("Class", .str "Bar")]) "Bar"
  refine ⟨by rfl, ?_⟩
  exact (h.2.2.2 (by rfl)).2

/-!
## Binary stream archive (serialization::multi_process_stream)

Modelled from the spec: util/multi_process_stream.h is not among the given
sources; the spec describes the byte-stream backend as a flat, directionally
consumed byte sequence with "sequential, directional (write-then-read) typed
insertion/extraction operators for primitive scalars and strings, plus
unsigned-integer length fields"; an `unsigned char` occupies one byte, an
`int` and an `unsigned int` occupy 4 bytes ("the 4-byte integer").  A written
stream is embedded as its byte list (naturals below 256, little-endian for
multi-byte scalars); reading consumes bytes from the front of the remaining
list, the cursor being implicit.
-/

/-- Little-endian bytes of a 32-bit unsigned value. -/
def uintBytes (n : Nat) : List Nat :=
  [n % 256, n / 256 % 256, n / 65536 % 256, n / 16777216 % 256]

/-- Appending `archive << static_cast<unsigned char>(b)`: one byte. -/
def writeUChar (s : List Nat) (b : Nat) : List Nat :=
  s ++ [b % 256]

/-- Appending `archive << (unsigned int)n`: the 4 bytes of the 32-bit value. -/
def writeUInt (s : List Nat) (n : Nat) : List Nat :=
  s ++ uintBytes n

/-- Appending `archive << (int)i`: the 4 bytes of the value's 32-bit
two's-complement representation. -/
def writeInt (s : List Nat) (i : Int) : List Nat :=
  s ++ uintBytes (i % 4294967296).toNat

/-- Consuming `archive >> (unsigned char)`: one byte off the front, failing
on a truncated (empty) stream. -/
def readUChar : List Nat → Option (Nat × List Nat)
  | b :: rest => some (b, rest)
  | [] => none

/-- Consuming `archive >> (unsigned int)`: 4 little-endian bytes off the
front, failing on a truncated stream. -/
def readUInt : List Nat → Option (Nat × List Nat)
  | b0 :: b1 :: b2 :: b3 :: rest =>
      some (b0 + 256 * b1 + 65536 * b2 + 16777216 * b3, rest)
  | _ => none

/-!
## Enum codec (archiver_wrapper.h to_json/from_json and stream push/pop)

`enum_to_string` / `string_to_enum` live in util/string_util.h, which is not
among the given sources.  Modelled from the spec: "an enumerated value
serializes as its canonical string name in the tree format and as its
underlying integer in the stream format".  An `EnumInfo` bundles, for one C++
enum type, its canonical-name maps and its underlying integer value;
`string_to_enum` may fail on an unknown name (`none`), and `static_cast` from
an out-of-range integer has no representable result in the embedding
(`ofInt` returns `none` there).
-/

/-- The per-enum-type data the serialization helpers depend on. -/
structure EnumInfo (α : Type) where
  enum_to_string : α → String
  string_to_enum : String → Option α
  underlying : α → Int
  ofInt : Int → Option α

/-- `to_json(json&, const EnumType&)`:
`archive = std::string(enum_to_string(e))`. -/
def to_json {α : Type} (E : EnumInfo α) (e : α) : Json :=
  .str (E.enum_to_string e)

/-- `archiver_wrapper<json>::push` in its `is_enum_v` branch: delegates to
`to_json`, which overwrites the archive node. -/
def push_json_enum {α : Type} (E : EnumInfo α) (_archive : Json) (e : α) :
    Json :=
  to_json E e

/-- `from_json(const json&, EnumType&)`: a string archive value is parsed as
the enum's canonical name; any other value is read with `get<int>()` (which
succeeds only on a numeric node and throws otherwise, the `none` outcome) and
cast to the enum type. -/
def from_json {α : Type} (E : EnumInfo α) : Json → Option α
  | .str s => E.string_to_enum s
  | .num i => E.ofInt i
  | _ => none

/-- `archiver_wrapper<multi_process_stream>::push` in its `is_enum_v` branch:
`archive << static_cast<int>(obj)`. -/
def push_stream_enum {α : Type} (E : EnumInfo α) (s : List Nat) (e : α) :
    List Nat :=
  writeInt s (E.underlying e)

/-- The example enum of the specification scenarios: `Color::Red` has
underlying value 0. -/
inductive Color : Type where
  | Red : Color
  | Green : Color
  | Blue : Color
deriving DecidableEq, Repr

/-- Canonical names of `Color` values. -/
def Color.enum_to_string : Color → String
  | .Red => "Red"
  | .Green => "Green"
  | .Blue => "Blue"

/-- Parsing a canonical `Color` name. -/
def Color.string_to_enum : String → Option Color
  | "Red" => some .Red
  | "Green" => some .Green
  | "Blue" => some .Blue
  | _ => none

/-- Underlying integer values of `Color` (Red = 0, Green = 1, Blue = 2). -/
def Color.underlying : Color → Int
  | .Red => 0
  | .Green => 1
  | .Blue => 2

/-- `static_cast<Color>(i)` for in-range integers. -/
def Color.ofInt : Int → Option Color
  | 0 => some .Red
  | 1 => some .Green
  | 2 => some .Blue
  | _ => none

/-- The `EnumInfo` bundle for `Color`. -/
def colorInfo : EnumInfo Color :=
  ⟨Color.enum_to_string, Color.string_to_enum, Color.underlying, Color.ofInt⟩

/-!
## Monostate, resize/size, read_binary
-/

/-- `archiver_wrapper<json>::push` in its `monostate` branch:
`archive = nullptr`. -/
def push_json_monostate (_archive : Json) : Json :=
  .null

/-- `archiver_wrapper<multi_process_stream>::push` in its `monostate` branch:
write a single marker byte `static_cast<unsigned char>(0)`. -/
def push_stream_monostate (s : List Nat) : List Nat :=
  writeUChar s 0

/-- `archiver_wrapper<multi_process_stream>::pop` in its `monostate` branch:
read and discard the marker byte, restore `std::monostate{}`. -/
def pop_stream_monostate (s : List Nat) : Option (Unit × List Nat) :=
  match readUChar s with
  | some (_, rest) => some ((), rest)
  | none => none

/-- `archiver_wrapper<multi_process_stream>::resize(archive, n)`:
`archive << static_cast<unsigned int>(n)`.  On the supported platforms
(configure.h: Windows/Linux/macOS) `unsigned int` is 32 bits while `size_t`
is 64 bits on a 64-bit build, so the cast takes `n` modulo 2^32. -/
def stream_resize (s : List Nat) (n : Nat) : List Nat :=
  writeUInt s (n % 4294967296)

/-- `archiver_wrapper<multi_process_stream>::size(archive)`: read an
`unsigned int` and return it cast (value-preservingly) to `size_t`. -/
def stream_size (s : List Nat) : Option (Nat × List Nat) :=
  readUInt s

/-- `access::read_binary(fn, buffer)` (serialization.cpp): open the file at
end, take its size from the cursor; if the size is 0, return leaving the
buffer untouched; otherwise resize the buffer to the file size and fill it
with the file's bytes.  The file is embedded as its byte contents and the
buffer as the caller's byte vector; the function's effect is the buffer's
final value. -/
def read_binary (file : List Nat) (buffer : List Nat) : List Nat :=
  if file.length = 0 then
    buffer
  else
    file

/-! ### Stream lemmas -/

theorem readUInt_uintBytes (n : Nat) (rest : List Nat) :
    readUInt (uintBytes n ++ rest) = some (n % 4294967296, rest) := by
  simp only [uintBytes, List.cons_append, List.nil_append, readUInt,
    Option.some.injEq, Prod.mk.injEq, and_true]
  omega

/-! ## Claim theorems: stream and codec -/

/-- C5: pushing an enumerated value to the tree archive serializes it as its
canonical string name, and pushing it to the stream archive appends the 4
bytes of its underlying integer; concretely, `Color::Red` (underlying
value 0) yields the string "Red" in the tree format and the 4-byte integer 0
in the stream format. -/
theorem enum_push_formats {α : Type} (E : EnumInfo α) (e : α) (j : Json)
    (s : List Nat) :
    push_json_enum E j e = Json.str (E.enum_to_string e) ∧
      (push_stream_enum E s e).length = s.length + 4 ∧
      push_json_enum colorInfo j Color.Red = Json.str "Red" ∧
      push_stream_enum colorInfo s Color.Red = s ++ [0, 0, 0, 0] := by
  refine ⟨rfl, ?_, rfl, ?_⟩
  · simp [push_stream_enum, writeInt, uintBytes]
  · simp [push_stream_enum, writeInt, colorInfo, Color.underlying, uintBytes]

/-- C6: saving `std::monostate` writes a single marker with no payload: the
tree format produces `null`, and the stream format appends exactly one marker
byte; loading the unit value from the stream consumes exactly that one byte
and restores the unit value. -/
theorem monostate_marker (j : Json) (s rest : List Nat) (b : Nat) :
    push_json_monostate j = Json.null ∧
      push_stream_monostate s = s ++ [0] ∧
      (push_stream_monostate s).length = s.length + 1 ∧
      pop_stream_monostate (b :: rest) = some ((), rest) := by
  refine ⟨rfl, rfl, ?_, rfl⟩
  simp [push_stream_monostate, writeUChar]

/-- C7 as stated is false: `resize` casts the `size_t` count to the 32-bit
`unsigned int` before appending it, so on a 64-bit platform the count 2^32 is
stored as 0 and read back as 0, not 2^32. -/
theorem resize_size_counterexample :
    stream_size (stream_resize [] 4294967296) = some (0, []) ∧
      (0 : Nat) ≠ 4294967296 := by
  constructor
  · rfl
  · decide

/-- C7 amended: `resize(archive, n)` appends the element count `n` reduced
modulo 2^32, and a subsequent `size(archive)` on the resulting stream reads
back exactly that; hence size after resize equals `n` whenever `n` fits in an
`unsigned int` (`n < 2^32`). -/
theorem resize_size_roundtrip (n : Nat) :
    stream_size (stream_resize [] n) = some (n % 4294967296, []) ∧
      (n < 4294967296 → stream_size (stream_resize [] n) = some (n, [])) := by
  have h : stream_size (stream_resize [] n) = some (n % 4294967296, []) := by
    have := readUInt_uintBytes (n % 4294967296) []
    simp only [stream_size, stream_resize, writeUInt, List.nil_append]
    rw [show uintBytes (n % 4294967296) = uintBytes (n % 4294967296) ++ [] by
      simp]
    rw [readUInt_uintBytes]
    simp [Nat.mod_mod_of_dvd]
  refine ⟨h, ?_⟩
  intro hlt
  rw [h, Nat.mod_eq_of_lt hlt]

/-- Witness for C7 amended at the concrete count 3: resize then size returns
3 with the stream fully consumed. -/
theorem resize_size_roundtrip_witness :
    3 < 4294967296 ∧ stream_size (stream_resize [] 3) = some (3, []) := by
  exact ⟨by decide, (resize_size_roundtrip 3).2 (by decide)⟩

/-- C9: `from_json` for enums accepts both representations: a string archive
value is parsed as the enum's canonical name, and a numeric archive value is
read as an int and cast to the enum type; concretely, the integer-encoded
field 1 loads as `Color::Green` and the string "Red" loads as `Color::Red`. -/
theorem from_json_enum_two_forms {α : Type} (E : EnumInfo α) (s : String)
    (i : Int) :
    from_json E (Json.str s) = E.string_to_enum s ∧
      from_json E (Json.num i) = E.ofInt i ∧
      from_json colorInfo (Json.num 1) = some Color.Green ∧
      from_json colorInfo (Json.str "Red") = some Color.Red := by
  exact ⟨rfl, rfl, rfl, rfl⟩

/-- C10: `read_binary` on a file of size 0 returns early and leaves the
caller's buffer exactly as it was: neither cleared nor resized. -/
theorem read_binary_empty_file (buffer : List Nat) :
    read_binary [] buffer = buffer := by
  rfl

end Serialization
